import Mathlib

/-! ITensor `option.h`: `Option`, `OptionSet` and the option factories

A shallow embedding of `src/itensor/option.h`.

* `Option` is the five-field record of the source, with `operator==` and
  `operator<` transcribed field by field.
* `OptionSet` wraps `std::set<Option>`.  The container is embedded as the
  red-black tree of the GNU C++ library (`_Rb_tree`): unique insertion
  (`_M_insert_unique` followed by `_Rb_tree_insert_and_rebalance`), `find`
  (`_M_lower_bound` followed by the equivalence test), `count` and in-order
  iteration.  The tree is spelled out because `Option::operator<` is not a
  strict weak ordering, so what the container does depends on the comparisons
  it really performs.
* `int` is embedded as `Int` (no arithmetic is performed on it), `std::string`
  as `String` with its lexicographic order, `Real` as `ℚ`.
* `FloatOption` repeats `Option` with a real payload that may also be an infinity or a
  NaN; `Option` is its restriction to finite payloads (`FloatOption.eq_toFloat`).
-/

/-! ## The container `std::set`: the red-black tree of the GNU C++ library -/

/-- The colour of a tree node (`_Rb_tree_color`). -/
inductive RbColor
  | red
  | black
  deriving DecidableEq, Repr

/-- A red-black tree of keys (`_Rb_tree`); `nil` is the null child pointer. -/
inductive RbTree (α : Type) where
  | nil : RbTree α
  | node (color : RbColor) (left : RbTree α) (key : α) (right : RbTree α) : RbTree α

/-- One node passed on the way down from the root: whether the descent went into its left
child, its colour, its key and the child that was not entered. -/
structure RbStep (α : Type) where
  left : Bool
  color : RbColor
  key : α
  other : RbTree α

namespace RbTree

variable {α : Type}

/-- The keys in iteration order (`begin()` to `end()`): the in-order traversal. -/
def toList : RbTree α → List α
  | nil => []
  | node _ l k r => toList l ++ k :: toList r

/-- Hang the subtree `x` under the node described by `s`, on the side the descent took. -/
def attach (s : RbStep α) (x : RbTree α) : RbTree α :=
  if s.left then node s.color x s.key s.other else node s.color s.other s.key x

/-- Hang `x` under a whole path; the head of the path is the parent of `x`. -/
def attachAll : RbTree α → List (RbStep α) → RbTree α
  | x, [] => x
  | x, s :: path => attachAll (attach s x) path

/-- The descent loop of `_M_insert_unique`: at every node go left when `k < key`, right
otherwise, until a null child is reached.  Returns the nodes passed, the last one first. -/
def descend (lt : α → α → Bool) (k : α) : RbTree α → List (RbStep α) → List (RbStep α)
  | nil, path => path
  | node c l key r, path =>
    if lt k key then descend lt k l (⟨true, c, key, r⟩ :: path)
    else descend lt k r (⟨false, c, key, l⟩ :: path)

/-- The node `j` that `_M_insert_unique` compares the new key with: the last node passed when the
descent ended with a right turn, otherwise its in-order predecessor (`--j`), which is the nearest
node above at which the descent turned right; `none` when there is none (`j == begin()`). -/
def predecessor : List (RbStep α) → Option α
  | [] => none
  | s :: path => if s.left then predecessor path else some s.key

/-- The two rotation cases of `_Rb_tree_insert_and_rebalance` (uncle black or absent), for a
red node `x` with red parent `p` and grandparent `g`: the result is the new root of the subtree
that was rooted at `g`. -/
def restructure (x : RbTree α) (p g : RbStep α) : RbTree α :=
  match g.left, p.left, x with
  | true, true, x => node .black x p.key (node .red p.other g.key g.other)
  | true, false, node _ xl xk xr =>
    node .black (node p.color p.other p.key xl) xk (node .red xr g.key g.other)
  | false, true, node _ xl xk xr =>
    node .black (node .red g.other g.key xl) xk (node p.color xr p.key p.other)
  | false, false, x => node .black (node .red g.other g.key p.other) p.key x
  | _, _, nil => attach g (attach p nil)

/-- The rebalancing loop of `_Rb_tree_insert_and_rebalance`, for the current node `x` and the
path above it: while the parent of `x` is red, either recolour (red uncle) and continue from the
grandparent, or rotate (black or absent uncle) and stop. -/
def rebalance : RbTree α → List (RbStep α) → RbTree α
  | x, [] => x
  | x, [p] => attach p x
  | x, p :: g :: rest =>
    match p.color with
    | .black => attachAll x (p :: g :: rest)
    | .red =>
      match g.other with
      | node .red ul uk ur =>
        rebalance (attach ⟨g.left, .red, g.key, node .black ul uk ur⟩
          (attach ⟨p.left, .black, p.key, p.other⟩ x)) rest
      | _ => attachAll (restructure x p g) rest

/-- The last statement of `_Rb_tree_insert_and_rebalance`: the root is coloured black. -/
def blacken : RbTree α → RbTree α
  | nil => nil
  | node _ l k r => node .black l k r

/-- The function `_Rb_tree_insert_and_rebalance`: the new key becomes a red leaf at the end of
the path, the tree is rebalanced and the root blackened. -/
def insert_and_rebalance (v : α) (path : List (RbStep α)) : RbTree α :=
  blacken (rebalance (node .red nil v nil) path)

/-- The function `_M_insert_unique`, which is `std::set::insert`: descend, then insert unless
the node `j` found is not less than the new key. -/
def insert_unique (lt : α → α → Bool) (t : RbTree α) (v : α) : RbTree α :=
  match predecessor (descend lt v t []) with
  | none => insert_and_rebalance v (descend lt v t [])
  | some j => if lt j v then insert_and_rebalance v (descend lt v t []) else t

/-- The function `_M_lower_bound`: `y` is the candidate so far (`none` is `end()`). -/
def lower_bound (lt : α → α → Bool) (k : α) : RbTree α → Option α → Option α
  | nil, y => y
  | node _ l key r, y =>
    if !(lt key k) then lower_bound lt k l (some key) else lower_bound lt k r y

/-- The function `find`: the lower bound, unless the key is less than it; `none` is `end()`. -/
def find (lt : α → α → Bool) (t : RbTree α) (k : α) : Option α :=
  match lower_bound lt k t none with
  | none => none
  | some j => if lt k j then none else some j

/-- The function `std::set::count`: `find(k) == end() ? 0 : 1`. -/
def count (lt : α → α → Bool) (t : RbTree α) (k : α) : Nat :=
  match find lt t k with
  | none => 0
  | some _ => 1

/-- The keys that come before the hole of a path in iteration order. -/
def keysBefore : List (RbStep α) → List α
  | [] => []
  | s :: path => keysBefore path ++ (if s.left then [] else toList s.other ++ [s.key])

/-- The keys that come after the hole of a path in iteration order. -/
def keysAfter : List (RbStep α) → List α
  | [] => []
  | s :: path => (if s.left then s.key :: toList s.other else []) ++ keysAfter path

end RbTree


namespace ITensor

/-- The enumeration `Option::Type`, in declaration order. -/
inductive OptionType
  | Auto
  | Cutoff
  | DebugLevel
  | DoPinning
  | NullOption
  | NumCenter
  | Offset
  | PreserveShape
  | Quiet
  | UseWF
  | Verbose
  | Weight
  deriving DecidableEq, Repr

/-- The integer value of an enumerator: its position in the declaration. -/
def OptionType.toNat : OptionType → Nat
  | .Auto => 0
  | .Cutoff => 1
  | .DebugLevel => 2
  | .DoPinning => 3
  | .NullOption => 4
  | .NumCenter => 5
  | .Offset => 6
  | .PreserveShape => 7
  | .Quiet => 8
  | .UseWF => 9
  | .Verbose => 10
  | .Weight => 11

/-- The type `Real` of the library (a floating-point number), embedded as a rational. -/
abbrev Real := ℚ

/-- Modelled from the spec: the tolerance `ApproxReal_Accuracy` of `real.h`, which is not among
the sources; the spec only says that it is an implementation-defined epsilon.  The results
below use of this value only that it is not negative and, for the two `Cutoff` overloads at 1,
that it is less than 1. -/
def ApproxReal_Accuracy : Real := 1 / 1000000000000

/-- Modelled from the spec: the struct `ApproxReal` of `real.h`, which is not among the sources:
a real payload compared with tolerance-based equality and ordering. -/
structure ApproxReal where
  r : Real
  deriving DecidableEq

/-- Modelled from the spec: `operator==` of `ApproxReal` (`real.h` is not among the sources):
two reals are equal when they are within the tolerance of each other. -/
def ApproxReal.eq (a b : ApproxReal) : Bool :=
  decide (|a.r - b.r| ≤ ApproxReal_Accuracy)

/-- Modelled from the spec: `operator<` of `ApproxReal` (`real.h` is not among the sources):
`a < b` when `b` exceeds `a` by more than the tolerance. -/
def ApproxReal.lt (a b : ApproxReal) : Bool :=
  decide (b.r - a.r > ApproxReal_Accuracy)

/-- The class `Option`: a discriminant and four payload fields. -/
structure Option where
  type_ : OptionType
  bval_ : Bool
  sval_ : String
  ival_ : Int
  rval_ : ApproxReal
  deriving DecidableEq

namespace Option

/-- `Option::operator==`: all five fields equal. -/
def eq (a other : Option) : Bool :=
  decide (a.type_ = other.type_) &&
  decide (a.bval_ = other.bval_) &&
  decide (a.sval_ = other.sval_) &&
  decide (a.ival_ = other.ival_) &&
  a.rval_.eq other.rval_

/-- `Option::operator<`: some field of the left operand is less than the same field of the
right operand. -/
def lt (a other : Option) : Bool :=
  decide (a.type_.toNat < other.type_.toNat) ||
  decide (a.bval_ < other.bval_) ||
  decide (a.sval_.data < other.sval_.data) ||
  decide (a.ival_ < other.ival_) ||
  a.rval_.lt other.rval_

/-- `Option::boolVal`. -/
def boolVal (a : Option) : Bool := a.bval_

/-- `Option::stringVal`. -/
def stringVal (a : Option) : String := a.sval_

/-- `Option::intVal`. -/
def intVal (a : Option) : Int := a.ival_

/-- `Option::realVal`. -/
def realVal (a : Option) : Real := a.rval_.r

/-- `Option::isNull`. -/
def isNull (a : Option) : Bool := decide (a.type_ = OptionType.NullOption)

/-- `Option::isNotNull`. -/
def isNotNull (a : Option) : Bool := decide (a.type_ ≠ OptionType.NullOption)

/-- `Option::type`. -/
def type (a : Option) : OptionType := a.type_

/-- The constructor `Option()`. -/
def default : Option :=
  { type_ := .NullOption, bval_ := false, sval_ := "", ival_ := 0, rval_ := ⟨0⟩ }

/-- The constructor `Option(Type type)`. -/
def ofType (type : OptionType) : Option :=
  { type_ := type, bval_ := false, sval_ := "", ival_ := 0, rval_ := ⟨0⟩ }

/-- The constructor `Option(Type type, bool bval)`. -/
def ofBool (type : OptionType) (bval : Bool) : Option :=
  { type_ := type, bval_ := bval, sval_ := "", ival_ := 0, rval_ := ⟨0⟩ }

/-- The constructor `Option(Type type, const std::string& sval)`. -/
def ofString (type : OptionType) (sval : String) : Option :=
  { type_ := type, bval_ := false, sval_ := sval, ival_ := 0, rval_ := ⟨0⟩ }

/-- The constructor `Option(Type type, int ival)`. -/
def ofInt (type : OptionType) (ival : Int) : Option :=
  { type_ := type, bval_ := false, sval_ := "", ival_ := ival, rval_ := ⟨0⟩ }

/-- The constructor `Option(Type type, Real rval)`. -/
def ofReal (type : OptionType) (rval : Real) : Option :=
  { type_ := type, bval_ := false, sval_ := "", ival_ := 0, rval_ := ⟨rval⟩ }

/-- The constructor `Option(Type, bool, const std::string&, int, Real)`. -/
def ofAll (type : OptionType) (bval : Bool) (sval : String) (ival : Int) (rval : Real) : Option :=
  { type_ := type, bval_ := bval, sval_ := sval, ival_ := ival, rval_ := ⟨rval⟩ }

end Option


/-- The class `OptionSet`: the member `opts_`, a `std::set<Option>` ordered by `operator<`. -/
structure OptionSet where
  opts_ : RbTree Option

/-- The fatal error raised by a failed lookup. -/
def lookupError : String := "OptionSet does not contain requested option"

namespace OptionSet

/-- `OptionSet::insert`: `if(val.isNotNull()) opts_.insert(val);`. -/
def insert (s : OptionSet) (val : Option) : OptionSet :=
  if val.isNotNull then ⟨s.opts_.insert_unique Option.lt val⟩ else s

/-- The constructor `OptionSet()`. -/
def ctor0 : OptionSet := ⟨.nil⟩

/-- The constructor `OptionSet(Option opt1)`: `opts_.insert(opt1);`. -/
def ctor1 (opt1 : Option) : OptionSet :=
  ⟨ctor0.opts_.insert_unique Option.lt opt1⟩

/-- The constructor `OptionSet(Option opt1, Option opt2)`. -/
def ctor2 (opt1 opt2 : Option) : OptionSet :=
  (ctor0.insert opt1).insert opt2

/-- The constructor `OptionSet(Option opt1, Option opt2, Option opt3)`. -/
def ctor3 (opt1 opt2 opt3 : Option) : OptionSet :=
  ((ctor0.insert opt1).insert opt2).insert opt3

/-- The constructor `OptionSet(Option opt1, ..., Option opt4)`. -/
def ctor4 (opt1 opt2 opt3 opt4 : Option) : OptionSet :=
  (((ctor0.insert opt1).insert opt2).insert opt3).insert opt4

/-- The constructor `OptionSet(Option opt1, ..., Option opt5)`. -/
def ctor5 (opt1 opt2 opt3 opt4 opt5 : Option) : OptionSet :=
  ((((ctor0.insert opt1).insert opt2).insert opt3).insert opt4).insert opt5

/-- The constructor `OptionSet(Option opt1, ..., Option opt6)`. -/
def ctor6 (opt1 opt2 opt3 opt4 opt5 opt6 : Option) : OptionSet :=
  (((((ctor0.insert opt1).insert opt2).insert opt3).insert opt4).insert opt5).insert opt6

/-- The members in iteration order. -/
def members (s : OptionSet) : List Option := s.opts_.toList

/-- `OptionSet::includes(const Option& val)`: `opts_.count(val) == 1`. -/
def includes (s : OptionSet) (val : Option) : Bool :=
  decide (s.opts_.count Option.lt val = 1)

/-- The loop of `includes(Option::Type)` and `get(Option::Type)` over the members in iteration
order: the first member whose discriminant is `type`. -/
def firstOfType (type : OptionType) : List Option → Except String Option
  | [] => .error lookupError
  | oo :: rest => if oo.type = type then .ok oo else firstOfType type rest

/-- `OptionSet::includes(Option::Type type)`. -/
def includesType (s : OptionSet) (type : OptionType) : Bool :=
  match firstOfType type s.members with
  | .ok _ => true
  | .error _ => false

/-- `OptionSet::get(const Option& opt)`: `opts_.find(opt)`, an error when it is `end()`. -/
def get (s : OptionSet) (opt : Option) : Except String Option :=
  match s.opts_.find Option.lt opt with
  | none => .error lookupError
  | some it => .ok it

/-- `OptionSet::get(Option::Type type)`. -/
def getType (s : OptionSet) (type : OptionType) : Except String Option :=
  firstOfType type s.members

/-- `OptionSet::stringVal`. -/
def stringVal (s : OptionSet) (opt : Option) : Except String String :=
  (s.get opt).map Option.stringVal

/-- `OptionSet::intVal`. -/
def intVal (s : OptionSet) (opt : Option) : Except String Int :=
  (s.get opt).map Option.intVal

/-- `OptionSet::realVal`. -/
def realVal (s : OptionSet) (opt : Option) : Except String Real :=
  (s.get opt).map Option.realVal

end OptionSet

/-- The sets a program can build: a constructor call followed by `insert` calls.  The list
records the options supplied, the latest first.  The constructors of arity two to six are
`OptionSet()` followed by `insert` calls. -/
inductive Reachable : List Option → OptionSet → Prop
  | ctor0 : Reachable [] OptionSet.ctor0
  | ctor1 (opt1 : Option) : Reachable [opt1] (OptionSet.ctor1 opt1)
  | insert {supplied : List Option} {s : OptionSet} (val : Option) :
      Reachable supplied s → Reachable (val :: supplied) (s.insert val)

/-! ## The factory functions -/

/-- The factory `Auto(bool val = true)`. -/
def Auto (val : Bool) : Option := Option.ofBool .Auto val

/-- The call `Auto()`. -/
def AutoDefault : Option := Auto true

/-- The factory `Cutoff(int val)`. -/
def CutoffInt (val : Int) : Option := Option.ofInt .Cutoff val

/-- The factory `Cutoff(Real val = 0)`. -/
def Cutoff (val : Real) : Option := Option.ofReal .Cutoff val

/-- The call `Cutoff()`. -/
def CutoffDefault : Option := Cutoff 0

/-- The factory `DebugLevel(int level)`. -/
def DebugLevel (level : Int) : Option := Option.ofInt .DebugLevel level

/-- The factory `DoPinning()`. -/
def DoPinning : Option := Option.ofType .DoPinning

/-- The factory `NumCenter(int nc = 2)`. -/
def NumCenter (nc : Int) : Option := Option.ofInt .NumCenter nc

/-- The call `NumCenter()`. -/
def NumCenterDefault : Option := NumCenter 2

/-- The factory `Offset(int n = 0)`. -/
def Offset (n : Int) : Option := Option.ofInt .Offset n

/-- The call `Offset()`. -/
def OffsetDefault : Option := Offset 0

/-- The factory `PreserveShape()`. -/
def PreserveShape : Option := Option.ofType .PreserveShape

/-- The factory `Quiet(bool val = true)`. -/
def Quiet (val : Bool) : Option := Option.ofBool .Quiet val

/-- The call `Quiet()`. -/
def QuietDefault : Option := Quiet true

/-- The factory `UseWF()`. -/
def UseWF : Option := Option.ofType .UseWF

/-- The factory `Verbose(bool val = true)`. -/
def Verbose (val : Bool) : Option := Option.ofBool .Verbose val

/-- The call `Verbose()`. -/
def VerboseDefault : Option := Verbose true

/-- The factory `Weight(Real w = 1)`. -/
def Weight (w : Real) : Option := Option.ofReal .Weight w

/-- The call `Weight()`. -/
def WeightDefault : Option := Weight 1

/-! ## Real payloads with the special values of floating point -/

/-- A value of the floating-point type `Real`: a finite number, an infinity or a NaN.
Arithmetic on finite numbers is taken as exact. -/
inductive FloatReal
  | finite (q : ℚ)
  | posInf
  | negInf
  | nan

namespace FloatReal

/-- Floating-point subtraction: a NaN operand gives a NaN, and so does the difference of two
infinities of the same sign. -/
def sub : FloatReal → FloatReal → FloatReal
  | finite a, finite b => finite (a - b)
  | finite _, posInf => negInf
  | finite _, negInf => posInf
  | posInf, finite _ => posInf
  | posInf, negInf => posInf
  | posInf, posInf => nan
  | negInf, finite _ => negInf
  | negInf, posInf => negInf
  | negInf, negInf => nan
  | nan, _ => nan
  | _, nan => nan

/-- The function `fabs`. -/
def fabs : FloatReal → FloatReal
  | finite q => finite |q|
  | posInf => posInf
  | negInf => posInf
  | nan => nan

/-- Floating-point `<=`: false as soon as one operand is a NaN. -/
def le : FloatReal → FloatReal → Bool
  | finite a, finite b => decide (a ≤ b)
  | finite _, posInf => true
  | finite _, negInf => false
  | posInf, finite _ => false
  | posInf, posInf => true
  | posInf, negInf => false
  | negInf, finite _ => true
  | negInf, posInf => true
  | negInf, negInf => true
  | nan, _ => false
  | _, nan => false

end FloatReal

/-- Modelled from the spec: the struct `ApproxReal` of `real.h`, which is not among the sources,
holding any floating-point value. -/
structure ApproxFloat where
  r : FloatReal

/-- Modelled from the spec: `operator==` of `ApproxReal` (`real.h` is not among the sources) on
floating-point values: the absolute difference is within the tolerance. -/
def ApproxFloat.eq (a b : ApproxFloat) : Bool :=
  (a.r.sub b.r).fabs.le (.finite ApproxReal_Accuracy)

/-- The class `Option` with a real payload that may be any floating-point value. -/
structure FloatOption where
  type_ : OptionType
  bval_ : Bool
  sval_ : String
  ival_ : Int
  rval_ : ApproxFloat

/-- `Option::operator==` on options whose real payload may be any floating-point value. -/
def FloatOption.eq (a other : FloatOption) : Bool :=
  decide (a.type_ = other.type_) &&
  decide (a.bval_ = other.bval_) &&
  decide (a.sval_ = other.sval_) &&
  decide (a.ival_ = other.ival_) &&
  a.rval_.eq other.rval_

/-- The constructor `Option(Type type, Real rval)` given any floating-point value. -/
def FloatOption.ofReal (type : OptionType) (rval : FloatReal) : FloatOption :=
  { type_ := type, bval_ := false, sval_ := "", ival_ := 0, rval_ := ⟨rval⟩ }

/-- An option of the embedding above, whose real payload is a rational, as an option with a
finite floating-point payload. -/
def Option.toFloat (a : Option) : FloatOption :=
  { type_ := a.type_, bval_ := a.bval_, sval_ := a.sval_, ival_ := a.ival_,
    rval_ := ⟨.finite a.rval_.r⟩ }

/-! ## Vocabulary of the claims -/

/-- What the five accessors of an option return. -/
def Option.hasFields (a : Option) (t : OptionType) (b : Bool) (s : String) (i : Int)
    (r : Real) : Prop :=
  a.type = t ∧ a.boolVal = b ∧ a.stringVal = s ∧ a.intVal = i ∧ a.realVal = r

/-- The options of a list, each kept once: an option is dropped when an option equal to it
under `operator==` comes later in the list. -/
def distinctOptions : List Option → List Option
  | [] => []
  | a :: rest =>
    if rest.any (fun b => a.eq b) then distinctOptions rest else a :: distinctOptions rest

/-- The number of distinct (under `operator==`) options of an argument list that are not
Null. -/
def countDistinctNotNull (args : List Option) : Nat :=
  (distinctOptions (args.filter Option.isNotNull)).length

end ITensor

/-! ## The tree: iteration order under insertion -/

namespace RbTree

variable {α : Type}

theorem toList_attach (s : RbStep α) (x : RbTree α) :
    toList (attach s x) =
      (if s.left then [] else toList s.other ++ [s.key]) ++ toList x ++
        (if s.left then s.key :: toList s.other else []) := by
  unfold attach
  cases s.left <;> simp [toList]

theorem toList_attachAll (x : RbTree α) (path : List (RbStep α)) :
    toList (attachAll x path) = keysBefore path ++ toList x ++ keysAfter path := by
  induction path generalizing x with
  | nil => simp [attachAll, keysBefore, keysAfter]
  | cons s path ih =>
    simp [attachAll, keysBefore, keysAfter, ih, toList_attach]

theorem toList_restructure (x : RbTree α) (p g : RbStep α) :
    toList (restructure x p g) = toList (attach g (attach p x)) := by
  unfold restructure
  rcases g with ⟨gl, gc, gk, go⟩
  rcases p with ⟨pl, pc, pk, po⟩
  cases gl <;> cases pl <;> cases x <;> simp [toList, attach]

theorem toList_rebalance (x : RbTree α) (path : List (RbStep α)) :
    toList (rebalance x path) = keysBefore path ++ toList x ++ keysAfter path := by
  induction x, path using rebalance.induct with
  | case1 x => simp [rebalance, keysBefore, keysAfter]
  | case2 x p => simp [rebalance, keysBefore, keysAfter, toList_attach]
  | case3 x p g rest hp =>
    rw [rebalance]
    simp only [hp]
    exact toList_attachAll _ _
  | case4 x p g rest hp ul uk ur hu ih =>
    rw [rebalance]
    simp only [hp, hu]
    rw [ih]
    simp [keysBefore, keysAfter, toList_attach, toList, hu]
  | case5 x p g rest hp hu =>
    rw [rebalance]
    simp only [hp]
    rw [toList_attachAll, toList_restructure]
    simp [keysBefore, keysAfter, toList_attach]

theorem toList_blacken (t : RbTree α) : toList (blacken t) = toList t := by
  cases t <;> simp [blacken, toList]

theorem toList_insert_and_rebalance (v : α) (path : List (RbStep α)) :
    toList (insert_and_rebalance v path) = keysBefore path ++ v :: keysAfter path := by
  simp [insert_and_rebalance, toList_blacken, toList_rebalance, toList]

theorem keys_descend (lt : α → α → Bool) (k : α) (t : RbTree α) (path : List (RbStep α)) :
    keysBefore (descend lt k t path) = keysBefore path ++ keysBefore (descend lt k t []) ∧
    keysAfter (descend lt k t path) = keysAfter (descend lt k t []) ++ keysAfter path ∧
    keysBefore (descend lt k t []) ++ keysAfter (descend lt k t []) = toList t := by
  induction t generalizing path with
  | nil => simp [descend, keysBefore, keysAfter, toList]
  | node c l key r ihl ihr =>
    unfold descend
    cases h : lt k key
    · have h1 := ihr (⟨false, c, key, l⟩ :: path)
      have h2 := ihr [⟨false, c, key, l⟩]
      simp only [Bool.false_eq_true, if_false]
      refine ⟨?_, ?_, ?_⟩
      · rw [h1.1, h2.1]; simp [keysBefore]
      · rw [h1.2.1, h2.2.1]; simp [keysAfter]
      · rw [h2.1, h2.2.1]
        have := h1.2.2
        simp [keysBefore, keysAfter, toList, ← this]
    · have h1 := ihl (⟨true, c, key, r⟩ :: path)
      have h2 := ihl [⟨true, c, key, r⟩]
      simp only [if_true]
      refine ⟨?_, ?_, ?_⟩
      · rw [h1.1, h2.1]; simp [keysBefore]
      · rw [h1.2.1, h2.2.1]; simp [keysAfter]
      · rw [h2.1, h2.2.1]
        have := h1.2.2
        simp [keysBefore, keysAfter, toList, ← this]

/-- Every right turn of a descent was taken at a key of the tree that the searched key is not
less than. -/
theorem descend_right_turns (lt : α → α → Bool) (k : α) (t : RbTree α) (path : List (RbStep α))
    (P : α → Prop) (hpath : ∀ s ∈ path, s.left = false → P s.key)
    (ht : ∀ j ∈ toList t, lt k j = false → P j) :
    ∀ s ∈ descend lt k t path, s.left = false → P s.key := by
  induction t generalizing path with
  | nil => simpa [descend] using hpath
  | node c l key r ihl ihr =>
    unfold descend
    cases h : lt k key
    · simp only [Bool.false_eq_true, if_false]
      apply ihr
      · intro s hs hleft
        rcases List.mem_cons.1 hs with rfl | hs
        · exact ht _ (by simp [toList]) h
        · exact hpath s hs hleft
      · intro j hj; exact ht j (by simp [toList, hj])
    · simp only [if_true]
      apply ihl
      · intro s hs hleft
        rcases List.mem_cons.1 hs with rfl | hs
        · simp at hleft
        · exact hpath s hs hleft
      · intro j hj; exact ht j (by simp [toList, hj])

theorem predecessor_mem (path : List (RbStep α)) (j : α) (h : predecessor path = some j) :
    ∃ s ∈ path, s.left = false ∧ s.key = j := by
  induction path with
  | nil => simp [predecessor] at h
  | cons s path ih =>
    unfold predecessor at h
    cases hl : s.left
    · simp [hl] at h
      exact ⟨s, by simp, hl, h⟩
    · simp [hl] at h
      obtain ⟨s', hs', h1, h2⟩ := ih h
      exact ⟨s', by simp [hs'], h1, h2⟩

/-- What `std::set::insert` does to the iteration order: either the new key is added at one
place and every other key stays where it was, or the tree is left as it is, and then it holds
a key `j` with neither `j < v` nor `v < j`. -/
theorem insert_unique_cases (lt : α → α → Bool) (t : RbTree α) (v : α) :
    (∃ front back, toList t = front ++ back ∧
        toList (insert_unique lt t v) = front ++ v :: back) ∨
    (insert_unique lt t v = t ∧ ∃ j ∈ toList t, lt j v = false ∧ lt v j = false) := by
  have hk := (keys_descend lt v t []).2.2
  have hins : ∃ front back, toList t = front ++ back ∧
      toList (insert_and_rebalance v (descend lt v t [])) = front ++ v :: back :=
    ⟨_, _, hk.symm, toList_insert_and_rebalance v _⟩
  unfold insert_unique
  cases hp : predecessor (descend lt v t []) with
  | none => exact Or.inl hins
  | some j =>
    cases hj : lt j v
    · right
      obtain ⟨s, hs, hleft, rfl⟩ := predecessor_mem _ _ hp
      have := descend_right_turns lt v t [] (fun j => j ∈ toList t ∧ lt v j = false)
        (by simp) (fun j hj h => ⟨hj, h⟩) s hs hleft
      refine ⟨?_, s.key, this.1, hj, this.2⟩
      simp [hj]
    · left
      simpa [hj] using hins

end RbTree

/-! ## Options: comparisons on concrete values -/

namespace ITensor

open RbTree

theorem OptionType.toNat_injective (a b : OptionType) (h : a.toNat = b.toNat) : a = b := by
  cases a <;> cases b <;> simp [OptionType.toNat] at h <;> rfl

/-- Two options of which neither is less than the other carry the same discriminant. -/
theorem Option.type_eq_of_not_lt (a b : Option) (hab : a.lt b = false) (hba : b.lt a = false) :
    a.type = b.type := by
  simp only [Option.lt, Bool.or_eq_false_iff, decide_eq_false_iff_not, not_lt] at hab hba
  exact OptionType.toNat_injective _ _ (le_antisymm hba.1.1.1.1 hab.1.1.1.1)

@[simp] theorem Option.type_ofInt (t : OptionType) (i : Int) : (Option.ofInt t i).type_ = t := rfl

@[simp] theorem Option.type_ofReal (t : OptionType) (r : Real) :
    (Option.ofReal t r).type_ = t := rfl

@[simp] theorem Option.type_ofBool (t : OptionType) (b : Bool) :
    (Option.ofBool t b).type_ = t := rfl

/-- The comparison `operator<` between two options built by `Option(Type, int)`. -/
theorem Option.lt_ofInt (t t' : OptionType) (i i' : Int) :
    (Option.ofInt t i).lt (Option.ofInt t' i') =
      (decide (t.toNat < t'.toNat) || decide (i < i')) := by
  simp [Option.lt, Option.ofInt, ApproxReal.lt, ApproxReal_Accuracy]

/-- The comparison `operator<` between two options built by `Option(Type, Real)`. -/
theorem Option.lt_ofReal (t t' : OptionType) (r r' : Real) :
    (Option.ofReal t r).lt (Option.ofReal t' r') =
      (decide (t.toNat < t'.toNat) || decide (r' - r > ApproxReal_Accuracy)) := by
  simp [Option.lt, Option.ofReal, ApproxReal.lt]

/-! ## Option sets: members under insertion -/

theorem OptionSet.members_insert_cases (s : OptionSet) (a : Option) :
    (∃ front back, s.members = front ++ back ∧ (s.insert a).members = front ++ a :: back) ∨
    (s.insert a = s ∧ (a.isNotNull = false ∨
        ∃ j ∈ s.members, j.lt a = false ∧ a.lt j = false)) := by
  unfold OptionSet.insert OptionSet.members
  cases hn : a.isNotNull
  · right; simp
  · simp only [if_true]
    rcases insert_unique_cases Option.lt s.opts_ a with h | ⟨h1, h2⟩
    · exact Or.inl h
    · right
      refine ⟨?_, Or.inr h2⟩
      cases s
      simp only [OptionSet.mk.injEq]
      exact h1

theorem OptionSet.mem_insert (s : OptionSet) (a m : Option) (h : m ∈ (s.insert a).members) :
    m = a ∨ m ∈ s.members := by
  rcases OptionSet.members_insert_cases s a with ⟨front, back, h1, h2⟩ | ⟨h1, _⟩
  · rw [h2] at h
    rw [h1]
    simp only [List.mem_append, List.mem_cons] at h ⊢
    tauto
  · rw [h1] at h; exact Or.inr h

theorem OptionSet.members_ctor1 (a : Option) : (OptionSet.ctor1 a).members = [a] := by
  simp [OptionSet.ctor1, OptionSet.ctor0, OptionSet.members, insert_unique, descend, predecessor,
    insert_and_rebalance, rebalance, blacken, toList]

/-- A reachable set holds only options that were supplied to it. -/
theorem Reachable.mem_supplied {supplied : List Option} {s : OptionSet}
    (h : Reachable supplied s) : ∀ m ∈ s.members, m ∈ supplied := by
  induction h with
  | ctor0 => simp [OptionSet.ctor0, OptionSet.members, toList]
  | ctor1 a => simp [OptionSet.members_ctor1]
  | insert val _ ih =>
    intro m hm
    rcases OptionSet.mem_insert _ _ _ hm with rfl | hm
    · simp
    · exact List.mem_cons_of_mem _ (ih m hm)

theorem OptionSet.firstOfType_error (t : OptionType) (l : List Option) :
    OptionSet.firstOfType t l = .error lookupError ↔ ∀ m ∈ l, m.type ≠ t := by
  induction l with
  | nil => simp [OptionSet.firstOfType]
  | cons oo rest ih =>
    unfold OptionSet.firstOfType
    by_cases h : oo.type = t
    · simp [h]
    · simp [h, ih]

theorem OptionSet.firstOfType_ok (t : OptionType) (l : List Option) (m : Option) :
    OptionSet.firstOfType t l = .ok m ↔
      ∃ front back, l = front ++ m :: back ∧ m.type = t ∧ ∀ x ∈ front, x.type ≠ t := by
  induction l with
  | nil => simp [OptionSet.firstOfType]
  | cons oo rest ih =>
    unfold OptionSet.firstOfType
    by_cases h : oo.type = t
    · simp only [h, if_true, Except.ok.injEq]
      constructor
      · rintro rfl
        exact ⟨[], rest, rfl, h, by simp⟩
      · rintro ⟨front, back, h1, _, h3⟩
        cases front with
        | nil => simp at h1; exact h1.1
        | cons x front =>
          simp at h1
          exact absurd h (h1.1 ▸ h3 x (by simp))
    · simp only [h, if_false, ih]
      constructor
      · rintro ⟨front, back, h1, h2, h3⟩
        refine ⟨oo :: front, back, by simp [h1], h2, ?_⟩
        intro x hx
        rcases List.mem_cons.1 hx with rfl | hx
        · exact h
        · exact h3 x hx
      · rintro ⟨front, back, h1, h2, h3⟩
        cases front with
        | nil => simp at h1; exact absurd h2 (h1.1 ▸ h)
        | cons x front =>
          simp at h1
          exact ⟨front, back, h1.2, h2, fun y hy => h3 y (by simp [hy])⟩

theorem OptionSet.firstOfType_cases (t : OptionType) (l : List Option) :
    OptionSet.firstOfType t l = .error lookupError ∨ ∃ m, OptionSet.firstOfType t l = .ok m := by
  induction l with
  | nil => simp [OptionSet.firstOfType]
  | cons oo rest ih =>
    unfold OptionSet.firstOfType
    by_cases h : oo.type = t
    · simp [h]
    · simpa [h] using ih

end ITensor

/-! ## The claims -/

namespace ITensor

open RbTree

/-- For an argument that is not Null the one-argument constructor agrees with
`OptionSet()` followed by `insert`. -/
theorem OptionSet.ctor1_eq_insert (a : Option) (h : a.isNotNull = true) :
    OptionSet.ctor1 a = OptionSet.ctor0.insert a := by
  simp [OptionSet.ctor1, OptionSet.insert, h]

/-- C1, at the failing input: the one-argument constructor calls `opts_.insert` directly, so
`OptionSet(Option())` holds the Null option as its only member, while `OptionSet()` followed by
`insert(Option())` is empty. -/
theorem C1_ctor1_stores_null :
    Option.default.isNull = true ∧
    (OptionSet.ctor1 Option.default).members = [Option.default] ∧
    (OptionSet.ctor0.insert Option.default).members = [] := by
  refine ⟨by simp [Option.isNull, Option.default], OptionSet.members_ctor1 _, ?_⟩
  simp [OptionSet.insert, Option.isNotNull, Option.default, OptionSet.ctor0, OptionSet.members,
    toList]

/-- C2, at the failing input: after `insert(DebugLevel(1))`, `insert(Cutoff(2))`,
`insert(Cutoff(0))` on an empty set, a second `insert(DebugLevel(1))` stores `DebugLevel(1)`
again, so two members are equal under `operator==`. -/
theorem C2_equal_members_stored :
    ((((OptionSet.ctor0.insert (DebugLevel 1)).insert (CutoffInt 2)).insert
        (CutoffInt 0)).insert (DebugLevel 1)).members =
      [CutoffInt 0, DebugLevel 1, CutoffInt 2, DebugLevel 1] ∧
    (DebugLevel 1).eq (DebugLevel 1) = true := by
  constructor
  · simp [DebugLevel, CutoffInt, OptionSet.insert, OptionSet.ctor0, OptionSet.members,
      Option.isNotNull, insert_unique, descend, predecessor, insert_and_rebalance, rebalance,
      restructure, blacken, attach, attachAll, toList, Option.lt_ofInt, OptionType.toNat]
  · simp [DebugLevel, Option.eq, Option.ofInt, ApproxReal.eq, ApproxReal_Accuracy]

/-- C3, at the failing input: after `insert(DebugLevel(0))` and `insert(Cutoff(1))` on an empty
set, `Cutoff(1)` is a member but `includes(Cutoff(1))` is false. -/
theorem C3_inserted_not_included :
    (CutoffInt 1).isNotNull = true ∧
    ((OptionSet.ctor0.insert (DebugLevel 0)).insert (CutoffInt 1)).members =
      [CutoffInt 1, DebugLevel 0] ∧
    ((OptionSet.ctor0.insert (DebugLevel 0)).insert (CutoffInt 1)).includes (CutoffInt 1)
      = false := by
  refine ⟨by simp [CutoffInt, Option.isNotNull], ?_, ?_⟩ <;>
  simp [DebugLevel, CutoffInt, OptionSet.insert, OptionSet.ctor0, OptionSet.members,
    OptionSet.includes, Option.isNotNull, insert_unique, descend, predecessor,
    insert_and_rebalance, rebalance, restructure, blacken, attach, attachAll, toList, count,
    find, lower_bound, Option.lt_ofInt, OptionType.toNat]

/-- C4, at the failing input: the set built by `insert(Offset(0))` and `insert(NumCenter(1))`
has the member `NumCenter(1)`, equal to the query under `operator==`, and
`includes(NumCenter(1))` is false. -/
theorem C4_member_not_included :
    NumCenter 1 ∈ ((OptionSet.ctor0.insert (Offset 0)).insert (NumCenter 1)).members ∧
    (NumCenter 1).eq (NumCenter 1) = true ∧
    ((OptionSet.ctor0.insert (Offset 0)).insert (NumCenter 1)).includes (NumCenter 1)
      = false := by
  refine ⟨?_, ?_, ?_⟩
  · simp [Offset, NumCenter, OptionSet.insert, OptionSet.ctor0, OptionSet.members,
      Option.isNotNull, insert_unique, descend, predecessor,
      insert_and_rebalance, rebalance, restructure, blacken, attach, attachAll, toList,
      Option.lt_ofInt, OptionType.toNat]
  · simp [NumCenter, Option.eq, Option.ofInt, ApproxReal.eq, ApproxReal_Accuracy]
  · simp [Offset, NumCenter, OptionSet.insert, OptionSet.ctor0,
      OptionSet.includes, Option.isNotNull, insert_unique, descend, predecessor,
      insert_and_rebalance, rebalance, restructure, blacken, attach, attachAll, count,
      find, lower_bound, Option.lt_ofInt, OptionType.toNat]

/-- C5, at the failing input: the set built by `insert(DebugLevel(3))` and `insert(Cutoff(7))`
has the member `Cutoff(7)`, and `get(Cutoff(7))` fails with the lookup error. -/
theorem C5_get_member_fails :
    CutoffInt 7 ∈ ((OptionSet.ctor0.insert (DebugLevel 3)).insert (CutoffInt 7)).members ∧
    (CutoffInt 7).eq (CutoffInt 7) = true ∧
    ((OptionSet.ctor0.insert (DebugLevel 3)).insert (CutoffInt 7)).get (CutoffInt 7)
      = .error lookupError := by
  refine ⟨?_, ?_, ?_⟩
  · simp [DebugLevel, CutoffInt, OptionSet.insert, OptionSet.ctor0, OptionSet.members,
      Option.isNotNull, insert_unique, descend, predecessor,
      insert_and_rebalance, rebalance, restructure, blacken, attach, attachAll, toList,
      Option.lt_ofInt, OptionType.toNat]
  · simp [CutoffInt, Option.eq, Option.ofInt, ApproxReal.eq, ApproxReal_Accuracy]
  · simp [DebugLevel, CutoffInt, OptionSet.insert, OptionSet.ctor0,
      OptionSet.get, Option.isNotNull, insert_unique, descend, predecessor,
      insert_and_rebalance, rebalance, restructure, blacken, attach, attachAll,
      find, lower_bound, Option.lt_ofInt, OptionType.toNat]

/-- C6: `get(Option::Type)` fails with the lookup error exactly when no member has the
discriminant, and otherwise returns the first member in iteration order that has it; on a set
whose only member is `Verbose(true)`, `get(Option::Verbose).boolVal()` is true; on a set built
by a constructor and `insert` calls that were never given a DebugLevel option,
`get(Option::DebugLevel)` fails. -/
theorem C6_get_by_type (s : OptionSet) (t : OptionType) :
    (s.getType t = .error lookupError ↔ ∀ m ∈ s.members, m.type ≠ t) ∧
    (∀ m, s.getType t = .ok m ↔
      ∃ front back, s.members = front ++ m :: back ∧ m.type = t ∧ ∀ x ∈ front, x.type ≠ t) ∧
    (s.members = [Verbose true] →
      (s.getType .Verbose).map Option.boolVal = .ok true) ∧
    (∀ supplied, Reachable supplied s → (∀ a ∈ supplied, a.type ≠ .DebugLevel) →
      s.getType .DebugLevel = .error lookupError) := by
  refine ⟨OptionSet.firstOfType_error t _, OptionSet.firstOfType_ok t _, ?_, ?_⟩
  · intro h
    simp [OptionSet.getType, h, OptionSet.firstOfType, Verbose, Option.type, Except.map,
      Option.boolVal, Option.ofBool]
  · intro supplied hr hs
    exact (OptionSet.firstOfType_error _ _).2 (fun m hm => hs m (hr.mem_supplied m hm))

/-- C6 at concrete sets: the set `OptionSet(Verbose(true))` and the set built from
`OptionSet(Verbose(true))` by `insert(Cutoff(2))`. -/
theorem C6_get_by_type_witness :
    ((OptionSet.ctor1 (Verbose true)).getType .Verbose).map Option.boolVal = .ok true ∧
    ((OptionSet.ctor1 (Verbose true)).insert (CutoffInt 2)).getType .DebugLevel
      = .error lookupError :=
  ⟨(C6_get_by_type (OptionSet.ctor1 (Verbose true)) .Verbose).2.2.1
      (OptionSet.members_ctor1 _),
   (C6_get_by_type ((OptionSet.ctor1 (Verbose true)).insert (CutoffInt 2)) .DebugLevel).2.2.2
      [CutoffInt 2, Verbose true] (Reachable.insert _ (Reachable.ctor1 _))
      (by simp [CutoffInt, Verbose, Option.type])⟩

/-- C7: `includes(Option::Type)` is true exactly when some member has the discriminant; after
`insert(a)` of an option that is not Null, `includes(a.type())` is true; and
`includes(type)` is true exactly when `get(type)` succeeds. -/
theorem C7_includes_by_type (s : OptionSet) (t : OptionType) :
    (s.includesType t = true ↔ ∃ m ∈ s.members, m.type = t) ∧
    (∀ a : Option, a.isNotNull = true → (s.insert a).includesType a.type = true) ∧
    (s.includesType t = true ↔ ∃ m, s.getType t = .ok m) := by
  have key : ∀ (s : OptionSet) (t : OptionType),
      s.includesType t = true ↔ ∃ m ∈ s.members, m.type = t := by
    intro s t
    unfold OptionSet.includesType
    rcases OptionSet.firstOfType_cases t s.members with h | ⟨m, h⟩
    · rw [h]
      have := (OptionSet.firstOfType_error t _).1 h
      simp only [Bool.false_eq_true, false_iff, not_exists, not_and]
      exact this
    · rw [h]
      obtain ⟨front, back, h1, h2, _⟩ := (OptionSet.firstOfType_ok t _ m).1 h
      simp only [true_iff]
      exact ⟨m, by simp [h1], h2⟩
  refine ⟨key s t, ?_, ?_⟩
  · intro a ha
    rw [key]
    rcases OptionSet.members_insert_cases s a with ⟨front, back, _, h2⟩ | ⟨h1, h2⟩
    · exact ⟨a, by simp [h2], rfl⟩
    · rcases h2 with h2 | ⟨j, hj, hja, haj⟩
      · rw [ha] at h2; cases h2
      · rw [h1]
        exact ⟨j, hj, Option.type_eq_of_not_lt j a hja haj⟩
  · unfold OptionSet.includesType OptionSet.getType
    rcases OptionSet.firstOfType_cases t s.members with h | ⟨m, h⟩
    · rw [h]; simp
    · rw [h]; simp

/-- C7 at a concrete set: after `insert(Cutoff(1/10))` on an empty set,
`includes(Option::Cutoff)` is true. -/
theorem C7_includes_by_type_witness :
    (Cutoff (1/10)).isNotNull = true ∧
    (OptionSet.ctor0.insert (Cutoff (1/10))).includesType .Cutoff = true :=
  ⟨by simp [Cutoff, Option.isNotNull],
   (C7_includes_by_type OptionSet.ctor0 .Cutoff).2.1 (Cutoff (1/10))
      (by simp [Cutoff, Option.isNotNull])⟩

/-- C8: `insert` of an option whose discriminant is `NullOption`, whatever its payload, leaves
the set unchanged: the same members, the same size, the same answers to `includes` and
`get`. -/
theorem C8_insert_null (s : OptionSet) (n : Option) (h : n.type = .NullOption) :
    s.insert n = s ∧
    (s.insert n).members = s.members ∧
    (s.insert n).members.length = s.members.length ∧
    (∀ opt, (s.insert n).includes opt = s.includes opt) ∧
    (∀ t, (s.insert n).includesType t = s.includesType t) ∧
    (∀ opt, (s.insert n).get opt = s.get opt) ∧
    (∀ t, (s.insert n).getType t = s.getType t) := by
  have h0 : s.insert n = s := by
    have : n.type_ = .NullOption := h
    simp [OptionSet.insert, Option.isNotNull, this]
  rw [h0]
  simp

/-- C8 at a concrete input: a Null-tagged option with a non-zero payload is inserted into
`OptionSet(Verbose(true))`. -/
theorem C8_insert_null_witness :
    (Option.ofAll .NullOption true "x" 3 (1/2)).type = .NullOption ∧
    ((OptionSet.ctor1 (Verbose true)).insert (Option.ofAll .NullOption true "x" 3 (1/2))).members
      = (OptionSet.ctor1 (Verbose true)).members :=
  ⟨rfl, (C8_insert_null (OptionSet.ctor1 (Verbose true))
      (Option.ofAll .NullOption true "x" 3 (1/2)) rfl).2.1⟩

/-- C9, at the failing input: the set built by `insert(NumCenter(1))`, `insert(Cutoff(2))`,
`insert(Cutoff(0))` has the member `NumCenter(1)`, and one more `insert(NumCenter(1))` stores
it a second time: the set grows from three members to four. -/
theorem C9_insert_equal_member_grows :
    (((OptionSet.ctor0.insert (NumCenter 1)).insert (CutoffInt 2)).insert (CutoffInt 0)).members
      = [CutoffInt 0, CutoffInt 2, NumCenter 1] ∧
    ((((OptionSet.ctor0.insert (NumCenter 1)).insert (CutoffInt 2)).insert
        (CutoffInt 0)).insert (NumCenter 1)).members =
      [CutoffInt 0, NumCenter 1, CutoffInt 2, NumCenter 1] := by
  constructor <;>
  simp [NumCenter, CutoffInt, OptionSet.insert, OptionSet.ctor0, OptionSet.members,
    Option.isNotNull, insert_unique, descend, predecessor, insert_and_rebalance, rebalance,
    restructure, blacken, attach, attachAll, toList, Option.lt_ofInt, OptionType.toNat]

/-- The comparison `operator<` of `Cutoff(int)` with `Cutoff(Real)`. -/
theorem Option.lt_CutoffInt_Cutoff (i : Int) (r : Real) :
    (CutoffInt i).lt (Cutoff r) = (decide (i < 0) || decide (r > ApproxReal_Accuracy)) := by
  simp [Option.lt, CutoffInt, Cutoff, Option.ofInt, Option.ofReal, ApproxReal.lt]

/-- The comparison `operator<` of `Cutoff(Real)` with `Cutoff(int)`. -/
theorem Option.lt_Cutoff_CutoffInt (i : Int) (r : Real) :
    (Cutoff r).lt (CutoffInt i) = (decide (0 < i) || decide (-r > ApproxReal_Accuracy)) := by
  simp [Option.lt, CutoffInt, Cutoff, Option.ofInt, Option.ofReal, ApproxReal.lt]

/-- C10, at the failing input: with `a = Cutoff(1)` (integer overload) and `b = Cutoff(1.0)`
(real overload), `get(Option::Cutoff)` returns `b` on the set built by `insert(a)` then
`insert(b)`, and returns `a` on the set built by `insert(b)` then `insert(a)`. -/
theorem C10_get_depends_on_insertion_order :
    (CutoffInt 1).isNotNull = true ∧ (Cutoff 1).isNotNull = true ∧
    ((OptionSet.ctor0.insert (CutoffInt 1)).insert (Cutoff 1)).getType .Cutoff
      = .ok (Cutoff 1) ∧
    ((OptionSet.ctor0.insert (Cutoff 1)).insert (CutoffInt 1)).getType .Cutoff
      = .ok (CutoffInt 1) ∧
    Cutoff 1 ≠ CutoffInt 1 ∧ (Cutoff 1).eq (CutoffInt 1) = false := by
  have e1 : (CutoffInt 1).lt (Cutoff 1) = true := by
    rw [Option.lt_CutoffInt_Cutoff]; norm_num [ApproxReal_Accuracy]
  have e2 : (Cutoff 1).lt (CutoffInt 1) = true := by
    rw [Option.lt_Cutoff_CutoffInt]; norm_num [ApproxReal_Accuracy]
  have n1 : (CutoffInt 1).isNotNull = true := by simp [CutoffInt, Option.isNotNull]
  have n2 : (Cutoff 1).isNotNull = true := by simp [Cutoff, Option.isNotNull]
  have t1 : (CutoffInt 1).type = .Cutoff := rfl
  have t2 : (Cutoff 1).type = .Cutoff := rfl
  refine ⟨n1, n2, ?_, ?_, ?_, ?_⟩
  · simp [OptionSet.insert, OptionSet.ctor0, OptionSet.getType, OptionSet.members,
      OptionSet.firstOfType, n1, n2, t1, t2, e1, e2, insert_unique, descend, predecessor,
      insert_and_rebalance, rebalance, restructure, blacken, attach, attachAll, toList]
  · simp [OptionSet.insert, OptionSet.ctor0, OptionSet.getType, OptionSet.members,
      OptionSet.firstOfType, n1, n2, t1, t2, e1, e2, insert_unique, descend, predecessor,
      insert_and_rebalance, rebalance, restructure, blacken, attach, attachAll, toList]
  · simp [Cutoff, CutoffInt, Option.ofReal, Option.ofInt]
  · simp [Cutoff, CutoffInt, Option.ofReal, Option.ofInt, Option.eq]

end ITensor

/-! ## Options: the ordering and the equality -/

namespace ITensor

open RbTree

theorem ApproxReal.eq_iff_neither_lt (a b : ApproxReal) :
    a.eq b = true ↔ (a.lt b = false ∧ b.lt a = false) := by
  simp only [ApproxReal.eq, ApproxReal.lt, decide_eq_true_eq, decide_eq_false_iff_not, not_lt,
    abs_le]
  constructor
  · rintro ⟨h1, h2⟩; constructor <;> linarith
  · rintro ⟨h1, h2⟩; constructor <;> linarith

theorem string_data_eq_of_not_lt (s t : String) (h1 : ¬ s.data < t.data)
    (h2 : ¬ t.data < s.data) : s = t :=
  String.ext (le_antisymm (not_lt.1 h2) (not_lt.1 h1))

theorem bool_eq_of_not_lt (x y : Bool) (h1 : ¬ x < y) (h2 : ¬ y < x) : x = y :=
  le_antisymm (not_lt.1 h2) (not_lt.1 h1)

/-- Neither of two options is less than the other exactly when they are equal under
`operator==`. -/
theorem Option.eq_iff_not_lt (a b : Option) :
    a.eq b = true ↔ (a.lt b = false ∧ b.lt a = false) := by
  simp only [Option.eq, Option.lt, Bool.and_eq_true, Bool.or_eq_false_iff, decide_eq_true_eq,
    decide_eq_false_iff_not, ApproxReal.eq_iff_neither_lt]
  constructor
  · rintro ⟨⟨⟨⟨h1, h2⟩, h3⟩, h4⟩, h5, h6⟩
    rw [h1, h2, h3, h4]
    simp [h5, h6]
  · rintro ⟨⟨⟨⟨⟨t1, b1⟩, s1⟩, i1⟩, r1⟩, ⟨⟨⟨t2, b2⟩, s2⟩, i2⟩, r2⟩
    exact ⟨⟨⟨⟨OptionType.toNat_injective _ _ (le_antisymm (not_lt.1 t2) (not_lt.1 t1)),
      bool_eq_of_not_lt _ _ b1 b2⟩, string_data_eq_of_not_lt _ _ s1 s2⟩,
      le_antisymm (not_lt.1 i2) (not_lt.1 i1)⟩, r1, r2⟩

/-- The comparison `operator==` between two options built by `Option(Type, int)`. -/
theorem Option.eq_ofInt (t t' : OptionType) (i i' : Int) :
    (Option.ofInt t i).eq (Option.ofInt t' i') = (decide (t = t') && decide (i = i')) := by
  simp [Option.eq, Option.ofInt, ApproxReal.eq, ApproxReal_Accuracy]

end ITensor

/-! ## The claims on `Option` and on the factories -/

namespace ITensor

open RbTree

/-- C11: `operator<` holds exactly when at least one of the five fields (type, bool, text,
integer, real) of the left operand is less than the same field of the right operand; it is
not a strict order: asymmetry fails (`DebugLevel(0)` and `Cutoff(1)` are each less than the
other) and transitivity fails (`Cutoff(1) < DebugLevel(0)` and
`DebugLevel(0) < Option(Auto, 1)`, but not `Cutoff(1) < Option(Auto, 1)`). -/
theorem C11_lt_fieldwise_not_strict_order :
    (∀ a b : Option, a.lt b = true ↔
      (a.type.toNat < b.type.toNat ∨ a.boolVal < b.boolVal ∨ a.stringVal < b.stringVal ∨
        a.intVal < b.intVal ∨ b.realVal - a.realVal > ApproxReal_Accuracy)) ∧
    ((DebugLevel 0).lt (CutoffInt 1) = true ∧ (CutoffInt 1).lt (DebugLevel 0) = true) ∧
    ((CutoffInt 1).lt (DebugLevel 0) = true ∧
      (DebugLevel 0).lt (Option.ofInt .Auto 1) = true ∧
      (CutoffInt 1).lt (Option.ofInt .Auto 1) = false) := by
  refine ⟨?_, ?_, ?_⟩
  · intro a b
    simp only [Option.lt, ApproxReal.lt, Bool.or_eq_true, decide_eq_true_eq, Option.type,
      Option.boolVal, Option.stringVal, Option.intVal, Option.realVal, or_assoc]
    rw [String.lt_iff_toList_lt]
    rfl
  · simp [DebugLevel, CutoffInt, Option.lt_ofInt, OptionType.toNat]
  · simp [DebugLevel, CutoffInt, Option.lt_ofInt, OptionType.toNat]

/-- C14: `isNull()` is true exactly when `type()` is `NullOption`, `isNotNull()` is its
negation, and the default-constructed option is Null. -/
theorem C14_isNull :
    (∀ a : Option, a.isNull = true ↔ a.type = .NullOption) ∧
    (∀ a : Option, a.isNotNull = !a.isNull) ∧
    Option.default.isNull = true := by
  refine ⟨?_, ?_, ?_⟩
  · intro a; simp [Option.isNull, Option.type]
  · intro a; simp [Option.isNull, Option.isNotNull]
  · simp [Option.isNull, Option.default]

/-- On options with a rational real payload `operator==` is reflexive. -/
theorem Option.eq_self (a : Option) : a.eq a = true := by
  simp [Option.eq, ApproxReal.eq, ApproxReal_Accuracy]

/-- The options with a rational real payload are the options with a finite floating-point
payload: `operator==` gives the same answer on both. -/
theorem FloatOption.eq_toFloat (a b : Option) : a.toFloat.eq b.toFloat = a.eq b := by
  simp [FloatOption.eq, Option.toFloat, ApproxFloat.eq, FloatReal.sub, FloatReal.fabs,
    FloatReal.le, Option.eq, ApproxReal.eq]

/-- C15, as stated, at concrete inputs: the options `Option(Option::Cutoff, NaN)` and
`Option(Option::Cutoff, +infinity)` are not equal to themselves under `operator==`, because the
difference of the real payload with itself is a NaN, and a NaN is not within the tolerance. -/
theorem C15_nan_payload_not_equal_to_itself :
    (FloatOption.ofReal .Cutoff .nan).eq (FloatOption.ofReal .Cutoff .nan) = false ∧
    (FloatOption.ofReal .Cutoff .posInf).eq (FloatOption.ofReal .Cutoff .posInf) = false := by
  constructor <;>
  simp [FloatOption.eq, FloatOption.ofReal, ApproxFloat.eq, FloatReal.sub, FloatReal.fabs,
    FloatReal.le]

/-- C15, amended: `operator==` is reflexive on every option whose real payload is a finite
number (neither a NaN nor an infinity): `a == a`, whatever the discriminant and the bool, text
and integer payloads. -/
theorem C15_eq_refl_finite (a : FloatOption) (q : ℚ) (h : a.rval_.r = .finite q) :
    a.eq a = true := by
  have eps : (0 : Real) ≤ ApproxReal_Accuracy := by norm_num [ApproxReal_Accuracy]
  simp [FloatOption.eq, ApproxFloat.eq, h, FloatReal.sub, FloatReal.fabs, FloatReal.le, eps]

/-- C15, amended, at a concrete input: `Option(Option::Cutoff, 0.1)`. -/
theorem C15_eq_refl_finite_witness :
    (FloatOption.ofReal .Cutoff (.finite (1 / 10))).rval_.r = .finite (1 / 10) ∧
    (FloatOption.ofReal .Cutoff (.finite (1 / 10))).eq
      (FloatOption.ofReal .Cutoff (.finite (1 / 10))) = true :=
  ⟨rfl, C15_eq_refl_finite (FloatOption.ofReal .Cutoff (.finite (1 / 10))) (1 / 10) rfl⟩

/-- C16: every constructor stores what it was given and leaves the payload fields it was not
given at false, the empty string, 0 and 0; the accessors return the stored fields whatever the
discriminant. -/
theorem C16_constructors (t : OptionType) (b : Bool) (s : String) (i : Int) (r : Real) :
    (Option.ofAll t b s i r).hasFields t b s i r ∧
    (Option.ofType t).hasFields t false "" 0 0 ∧
    (Option.ofBool t b).hasFields t b "" 0 0 ∧
    (Option.ofString t s).hasFields t false s 0 0 ∧
    (Option.ofInt t i).hasFields t false "" i 0 ∧
    (Option.ofReal t r).hasFields t false "" 0 r ∧
    Option.default.hasFields .NullOption false "" 0 0 := by
  simp [Option.hasFields, Option.ofAll, Option.ofType, Option.ofBool, Option.ofString,
    Option.ofInt, Option.ofReal, Option.default, Option.type, Option.boolVal, Option.stringVal,
    Option.intVal, Option.realVal]

/-- C17: every factory returns an option that is not Null, carries the discriminant the
factory is named after, holds the argument (or its default) in the matching payload field and
has every other payload field at zero or empty. -/
theorem C17_factories (v : Bool) (n : Int) (r : Real) :
    ((Auto v).isNotNull = true ∧ (Auto v).hasFields .Auto v "" 0 0 ∧
      AutoDefault.isNotNull = true ∧ AutoDefault.hasFields .Auto true "" 0 0) ∧
    ((CutoffInt n).isNotNull = true ∧ (CutoffInt n).hasFields .Cutoff false "" n 0) ∧
    ((Cutoff r).isNotNull = true ∧ (Cutoff r).hasFields .Cutoff false "" 0 r ∧
      CutoffDefault.isNotNull = true ∧ CutoffDefault.hasFields .Cutoff false "" 0 0) ∧
    ((DebugLevel n).isNotNull = true ∧ (DebugLevel n).hasFields .DebugLevel false "" n 0) ∧
    (DoPinning.isNotNull = true ∧ DoPinning.hasFields .DoPinning false "" 0 0) ∧
    ((NumCenter n).isNotNull = true ∧ (NumCenter n).hasFields .NumCenter false "" n 0 ∧
      NumCenterDefault.isNotNull = true ∧
      NumCenterDefault.hasFields .NumCenter false "" 2 0) ∧
    ((Offset n).isNotNull = true ∧ (Offset n).hasFields .Offset false "" n 0 ∧
      OffsetDefault.isNotNull = true ∧ OffsetDefault.hasFields .Offset false "" 0 0) ∧
    (PreserveShape.isNotNull = true ∧ PreserveShape.hasFields .PreserveShape false "" 0 0) ∧
    ((Quiet v).isNotNull = true ∧ (Quiet v).hasFields .Quiet v "" 0 0 ∧
      QuietDefault.isNotNull = true ∧ QuietDefault.hasFields .Quiet true "" 0 0) ∧
    (UseWF.isNotNull = true ∧ UseWF.hasFields .UseWF false "" 0 0) ∧
    ((Verbose v).isNotNull = true ∧ (Verbose v).hasFields .Verbose v "" 0 0 ∧
      VerboseDefault.isNotNull = true ∧ VerboseDefault.hasFields .Verbose true "" 0 0) ∧
    ((Weight r).isNotNull = true ∧ (Weight r).hasFields .Weight false "" 0 r ∧
      WeightDefault.isNotNull = true ∧ WeightDefault.hasFields .Weight false "" 0 1) := by
  simp [Option.hasFields, Option.isNotNull, Auto, AutoDefault, CutoffInt, Cutoff, CutoffDefault,
    DebugLevel, DoPinning, NumCenter, NumCenterDefault, Offset, OffsetDefault, PreserveShape,
    Quiet, QuietDefault, UseWF, Verbose, VerboseDefault, Weight, WeightDefault,
    Option.ofType, Option.ofBool, Option.ofInt, Option.ofReal, Option.type, Option.boolVal,
    Option.stringVal, Option.intVal, Option.realVal]

end ITensor

/-! ## The tree: what a successful lookup returns -/

namespace RbTree

variable {α : Type}

theorem lower_bound_some (lt : α → α → Bool) (k : α) (t : RbTree α) (y : Option α) (j : α)
    (h : lower_bound lt k t y = some j) :
    y = some j ∨ (j ∈ toList t ∧ lt j k = false) := by
  induction t generalizing y with
  | nil => left; simpa [lower_bound] using h
  | node c l key r ihl ihr =>
    unfold lower_bound at h
    cases hk : lt key k
    · simp only [hk, Bool.not_false, if_true] at h
      rcases ihl _ h with h1 | ⟨h1, h2⟩
      · right
        cases h1
        exact ⟨by simp [toList], hk⟩
      · right; exact ⟨by simp [toList, h1], h2⟩
    · simp only [hk, Bool.not_true, Bool.false_eq_true, if_false] at h
      rcases ihr _ h with h1 | ⟨h1, h2⟩
      · left; exact h1
      · right; exact ⟨by simp [toList, h1], h2⟩

/-- The key that `find` returns is a key of the tree, and neither it nor the searched key is
less than the other. -/
theorem find_some (lt : α → α → Bool) (t : RbTree α) (k j : α) (h : find lt t k = some j) :
    j ∈ toList t ∧ lt j k = false ∧ lt k j = false := by
  unfold find at h
  cases hl : lower_bound lt k t none with
  | none => simp [hl] at h
  | some y =>
    simp only [hl] at h
    cases hy : lt k y
    · simp only [hy, Bool.false_eq_true, if_false, Option.some.injEq] at h
      subst h
      rcases lower_bound_some lt k t none y hl with h1 | ⟨h1, h2⟩
      · cases h1
      · exact ⟨h1, h2, hy⟩
    · simp [hy] at h

end RbTree

namespace ITensor

open RbTree

/-- The option that `get(const Option&)` returns is a member equal to the query under
`operator==`. -/
theorem OptionSet.get_ok (s : OptionSet) (opt m : Option) (h : s.get opt = .ok m) :
    m ∈ s.members ∧ m.eq opt = true := by
  unfold OptionSet.get at h
  cases hf : s.opts_.find Option.lt opt with
  | none => simp [hf] at h
  | some j =>
    simp only [hf, Except.ok.injEq] at h
    subst h
    obtain ⟨h1, h2, h3⟩ := find_some _ _ _ _ hf
    exact ⟨h1, (Option.eq_iff_not_lt _ _).2 ⟨h2, h3⟩⟩

theorem OptionSet.get_cases (s : OptionSet) (opt : Option) :
    s.get opt = .error lookupError ∨ ∃ m, s.get opt = .ok m := by
  unfold OptionSet.get
  cases s.opts_.find Option.lt opt <;> simp

theorem OptionSet.includes_true (s : OptionSet) (opt : Option) (h : s.includes opt = true) :
    ∃ m ∈ s.members, m.eq opt = true := by
  unfold OptionSet.includes RbTree.count at h
  cases hf : s.opts_.find Option.lt opt with
  | none => simp [hf] at h
  | some j =>
    obtain ⟨h1, h2, h3⟩ := find_some _ _ _ _ hf
    exact ⟨j, h1, (Option.eq_iff_not_lt _ _).2 ⟨h2, h3⟩⟩

theorem Option.eq_fields (a b : Option) (h : a.eq b = true) :
    a.type = b.type ∧ a.boolVal = b.boolVal ∧ a.stringVal = b.stringVal ∧
      a.intVal = b.intVal := by
  simp only [Option.eq, Bool.and_eq_true, decide_eq_true_eq] at h
  exact ⟨h.1.1.1.1, h.1.1.1.2, h.1.1.2, h.1.2⟩

/-! ## The claims on payload lookups and on the two `Cutoff` overloads -/

/-- C19: when `OptionSet::intVal(opt)` succeeds its result is `opt.intVal()`, and when
`OptionSet::stringVal(opt)` succeeds its result is `opt.stringVal()`; on a set whose only
member is `DebugLevel(n)` with `n ≠ 0`, the lookup `intVal(Option(Option::DebugLevel))` fails
with the lookup error. -/
theorem C19_payload_lookup (s : OptionSet) (opt : Option) :
    (∀ n, s.intVal opt = .ok n → n = opt.intVal) ∧
    (∀ str, s.stringVal opt = .ok str → str = opt.stringVal) ∧
    (∀ n : Int, n ≠ 0 → s.members = [DebugLevel n] →
      s.intVal (Option.ofType .DebugLevel) = .error lookupError) := by
  refine ⟨?_, ?_, ?_⟩
  · intro n h
    rcases OptionSet.get_cases s opt with he | ⟨m, hm⟩
    · simp [OptionSet.intVal, he, Except.map] at h
    · simp only [OptionSet.intVal, hm, Except.map, Except.ok.injEq] at h
      rw [← h]
      exact (Option.eq_fields _ _ (OptionSet.get_ok s opt m hm).2).2.2.2
  · intro str h
    rcases OptionSet.get_cases s opt with he | ⟨m, hm⟩
    · simp [OptionSet.stringVal, he, Except.map] at h
    · simp only [OptionSet.stringVal, hm, Except.map, Except.ok.injEq] at h
      rw [← h]
      exact (Option.eq_fields _ _ (OptionSet.get_ok s opt m hm).2).2.2.1
  · intro n hn hs
    rcases OptionSet.get_cases s (Option.ofType .DebugLevel) with he | ⟨m, hm⟩
    · simp [OptionSet.intVal, he, Except.map]
    · exfalso
      obtain ⟨h1, h2⟩ := OptionSet.get_ok s _ m hm
      rw [hs, List.mem_singleton] at h1
      subst h1
      exact hn (Option.eq_fields _ _ h2).2.2.2

/-- C19 at a concrete set: `OptionSet(DebugLevel(3))` queried with the bare tag. -/
theorem C19_payload_lookup_witness :
    (OptionSet.ctor1 (DebugLevel 3)).intVal (Option.ofType .DebugLevel) = .error lookupError :=
  (C19_payload_lookup (OptionSet.ctor1 (DebugLevel 3)) (Option.ofType .DebugLevel)).2.2 3
    (by decide) (OptionSet.members_ctor1 _)

/-- C20: for an integer `n ≠ 0` and any real `r`, `Cutoff(n)` (integer overload) is not equal
to `Cutoff(r)` (real overload) under `operator==`; a set whose only member is `Cutoff(n)`,
such as the empty set after `insert(Cutoff(n))`, does not include `Cutoff(r)`, while
`includes(Option::Cutoff)` is true for it. -/
theorem C20_cutoff_overloads_differ (n : Int) (r : Real) (h : n ≠ 0) :
    (CutoffInt n).eq (Cutoff r) = false ∧
    (∀ s : OptionSet, s.members = [CutoffInt n] →
      s.includes (Cutoff r) = false ∧ s.includesType .Cutoff = true) ∧
    (OptionSet.ctor0.insert (CutoffInt n)).members = [CutoffInt n] := by
  have hne : (CutoffInt n).eq (Cutoff r) = false := by
    simp [Option.eq, CutoffInt, Cutoff, Option.ofInt, Option.ofReal, h]
  refine ⟨hne, ?_, ?_⟩
  · intro s hs
    constructor
    · cases hi : s.includes (Cutoff r)
      · rfl
      · obtain ⟨m, hm, he⟩ := OptionSet.includes_true s _ hi
        rw [hs, List.mem_singleton] at hm
        subst hm
        rw [hne] at he
        cases he
    · simp [OptionSet.includesType, hs, OptionSet.firstOfType, CutoffInt, Option.type]
  · rw [← OptionSet.ctor1_eq_insert _ (by simp [CutoffInt, Option.isNotNull])]
    exact OptionSet.members_ctor1 _

/-- C20 at a concrete input: `Cutoff(3)` against `Cutoff(3.0)`. -/
theorem C20_cutoff_overloads_differ_witness :
    (3 : Int) ≠ 0 ∧ (CutoffInt 3).eq (Cutoff 3) = false ∧
    (OptionSet.ctor0.insert (CutoffInt 3)).includes (Cutoff 3) = false :=
  ⟨by decide, (C20_cutoff_overloads_differ 3 3 (by decide)).1,
    ((C20_cutoff_overloads_differ 3 3 (by decide)).2.1 _
      (C20_cutoff_overloads_differ 3 3 (by decide)).2.2).1⟩

end ITensor

/-! ## Two options that differ in one payload field -/

namespace ITensor

open RbTree

/-- C13, at two failing inputs: `OptionSet(Option())` has one member although no argument is
not Null, and `OptionSet(DebugLevel(1), Cutoff(2), Cutoff(0), DebugLevel(1))` has four members
although only three distinct options were supplied. -/
theorem C13_member_count_differs :
    (OptionSet.ctor1 Option.default).members.length = 1 ∧
    countDistinctNotNull [Option.default] = 0 ∧
    (OptionSet.ctor4 (DebugLevel 1) (CutoffInt 2) (CutoffInt 0) (DebugLevel 1)).members.length
      = 4 ∧
    countDistinctNotNull [DebugLevel 1, CutoffInt 2, CutoffInt 0, DebugLevel 1] = 3 := by
  refine ⟨by rw [OptionSet.members_ctor1]; rfl, ?_, ?_, ?_⟩
  · simp [countDistinctNotNull, distinctOptions, Option.isNotNull, Option.default]
  · simp [OptionSet.ctor4, DebugLevel, CutoffInt, OptionSet.insert, OptionSet.ctor0,
      OptionSet.members, Option.isNotNull, insert_unique, descend, predecessor,
      insert_and_rebalance, rebalance, restructure, blacken, attach, attachAll, toList,
      Option.lt_ofInt, OptionType.toNat]
  · simp [countDistinctNotNull, distinctOptions, Option.isNotNull, DebugLevel, CutoffInt,
      Option.eq_ofInt]

end ITensor
